import Mathlib

/-!
Verification of the `ai-summarize` CV-evaluation service against its
natural-language specification.

The Go source is shallowly embedded: `float64` arithmetic is modelled as
exact rational (`ℚ`) arithmetic in the scoring utilities and as real (`ℝ`)
arithmetic where square roots occur (cosine similarity); Go strings are
Lean `String`s; fallible calls return `Except`; the external LLM and
embedding services are oracle parameters.
-/

namespace AISummarize

/-! ## Scoring service (`internal/services/scoring_service.go`) -/

/-- Go `math.Round`: rounds half away from zero. Embedded on `ℚ`,
result returned as a rational (the Go function returns `float64`). -/
def goRound (x : ℚ) : ℚ :=
  if 0 ≤ x then (⌊x + 1/2⌋ : ℤ) else -(⌊-x + 1/2⌋ : ℤ)

/-- `models.CVScores`. -/
structure CVScores where
  technicalSkills : ℚ
  experienceLevel : ℚ
  achievements : ℚ
  culturalFit : ℚ
  deriving DecidableEq

/-- `models.ProjectScores`. -/
structure ProjectScores where
  correctness : ℚ
  codeQuality : ℚ
  resilience : ℚ
  documentation : ℚ
  creativity : ℚ
  deriving DecidableEq

/-- The weighted sum inside `ScoringService.CalculateCVScore`. -/
def cvWeightedSum (s : CVScores) : ℚ :=
  s.technicalSkills * 0.4 + s.experienceLevel * 0.25 +
    s.achievements * 0.2 + s.culturalFit * 0.15

/-- `ScoringService.CalculateCVScore`: weighted sum rounded to 2 decimals. -/
def CalculateCVScore (s : CVScores) : ℚ :=
  goRound (cvWeightedSum s * 100) / 100

/-- The weighted sum inside `ScoringService.CalculateProjectScore`. -/
def projectWeightedSum (s : ProjectScores) : ℚ :=
  s.correctness * 0.3 + s.codeQuality * 0.25 + s.resilience * 0.2 +
    s.documentation * 0.15 + s.creativity * 0.1

/-- `ScoringService.CalculateProjectScore`. -/
def CalculateProjectScore (s : ProjectScores) : ℚ :=
  goRound (projectWeightedSum s * 100) / 100

/-- `ScoringService.CalculateOverallScore`: 60% CV, 40% project. -/
def CalculateOverallScore (cvScore projectScore : ℚ) : ℚ :=
  goRound ((cvScore * 0.6 + projectScore * 0.4) * 100) / 100

/-- `ScoringService.GetScoreInterpretation`. -/
def GetScoreInterpretation (score : ℚ) : String :=
  if 4.5 ≤ score then "Excellent - Highly recommended"
  else if 4.0 ≤ score then "Very Good - Strong candidate"
  else if 3.5 ≤ score then "Good - Solid candidate"
  else if 3.0 ≤ score then "Average - Consider with reservations"
  else if 2.5 ≤ score then "Below Average - Not recommended"
  else "Poor - Not suitable"

/-- `ScoringService.ValidateScore`: error outside [0, 5], success inside. -/
def ValidateScore (score : ℚ) : Except String Unit :=
  if score < 0 ∨ 5 < score then .error "score must be between 0 and 5"
  else .ok ()

/-- The four weight constants of `CalculateCVScore` / `evaluateCV`,
in source order. -/
def cvWeights : List ℚ := [0.4, 0.25, 0.2, 0.15]

/-- `EvaluationService.evaluateCV`: the derived match rate, i.e. the
weighted sub-score sum divided by 5 and then rounded to 2 decimals. -/
def evaluateCVMatchRate (s : CVScores) : ℚ :=
  goRound (cvWeightedSum s / 5 * 100) / 100

/-! ### Arithmetic facts about `goRound` -/

theorem goRound_nonneg {x : ℚ} (h : 0 ≤ x) : 0 ≤ goRound x := by
  unfold goRound
  rw [if_pos h]
  have : (0:ℤ) ≤ ⌊x + 1/2⌋ := Int.floor_nonneg.2 (by linarith)
  exact_mod_cast this

theorem goRound_le_int {x : ℚ} {n : ℤ} (h0 : 0 ≤ x) (h : x ≤ n) :
    goRound x ≤ n := by
  unfold goRound
  rw [if_pos h0]
  have : ⌊x + 1/2⌋ < n + 1 := Int.floor_lt.2 (by push_cast; linarith)
  exact_mod_cast Int.lt_add_one_iff.1 this

/-- Rounding a weighted sum in [0, 5] to two decimals stays in [0, 5]. -/
theorem round_weighted_bounds {w : ℚ} (h0 : 0 ≤ w) (h5 : w ≤ 5) :
    0 ≤ goRound (w * 100) / 100 ∧ goRound (w * 100) / 100 ≤ 5 := by
  have h1 : 0 ≤ w * 100 := by linarith
  have h2 : w * 100 ≤ ((500 : ℤ) : ℚ) := by push_cast; linarith
  have hl := goRound_nonneg h1
  have hu := goRound_le_int h1 h2
  constructor
  · positivity
  · rw [div_le_iff₀ (by norm_num : (0:ℚ) < 100)]
    push_cast at hu ⊢
    linarith

/-- A sub-score within the 0–5 rubric range. -/
def InRange05 (x : ℚ) : Prop := 0 ≤ x ∧ x ≤ 5

theorem cvWeightedSum_bounds {s : CVScores}
    (h1 : InRange05 s.technicalSkills) (h2 : InRange05 s.experienceLevel)
    (h3 : InRange05 s.achievements) (h4 : InRange05 s.culturalFit) :
    0 ≤ cvWeightedSum s ∧ cvWeightedSum s ≤ 5 := by
  obtain ⟨a1, b1⟩ := h1; obtain ⟨a2, b2⟩ := h2
  obtain ⟨a3, b3⟩ := h3; obtain ⟨a4, b4⟩ := h4
  unfold cvWeightedSum
  constructor <;> nlinarith

theorem projectWeightedSum_bounds {s : ProjectScores}
    (h1 : InRange05 s.correctness) (h2 : InRange05 s.codeQuality)
    (h3 : InRange05 s.resilience) (h4 : InRange05 s.documentation)
    (h5 : InRange05 s.creativity) :
    0 ≤ projectWeightedSum s ∧ projectWeightedSum s ≤ 5 := by
  obtain ⟨a1, b1⟩ := h1; obtain ⟨a2, b2⟩ := h2
  obtain ⟨a3, b3⟩ := h3; obtain ⟨a4, b4⟩ := h4; obtain ⟨a5, b5⟩ := h5
  unfold projectWeightedSum
  constructor <;> nlinarith

theorem validateScore_ok {x : ℚ} (h0 : 0 ≤ x) (h5 : x ≤ 5) :
    ValidateScore x = .ok () := by
  unfold ValidateScore
  rw [if_neg]
  push_neg
  exact ⟨h0, h5⟩

/-- C7: the CV composite uses weights {0.40, 0.25, 0.20, 0.15} summing to
exactly 1; the perfect profile (5,5,5,5) scores 5 and the zero profile
(0,0,0,0) scores 0; and the derived match rate (weighted mean divided by 5,
rounded to 2 decimals) lies in [0, 1] for sub-scores in the 0–5 range. -/
theorem cv_composite_weights_and_match_rate (s : CVScores)
    (h1 : InRange05 s.technicalSkills) (h2 : InRange05 s.experienceLevel)
    (h3 : InRange05 s.achievements) (h4 : InRange05 s.culturalFit) :
    cvWeights.sum = 1 ∧
    CalculateCVScore ⟨5, 5, 5, 5⟩ = 5 ∧
    CalculateCVScore ⟨0, 0, 0, 0⟩ = 0 ∧
    0 ≤ evaluateCVMatchRate s ∧ evaluateCVMatchRate s ≤ 1 := by
  have hw := cvWeightedSum_bounds h1 h2 h3 h4
  refine ⟨by norm_num [cvWeights], ?_, ?_, ?_, ?_⟩
  · show goRound (cvWeightedSum ⟨5, 5, 5, 5⟩ * 100) / 100 = 5
    norm_num [cvWeightedSum, goRound]
  · show goRound (cvWeightedSum ⟨0, 0, 0, 0⟩ * 100) / 100 = 0
    norm_num [cvWeightedSum, goRound]
  · have : 0 ≤ cvWeightedSum s / 5 * 100 := by linarith
    have := goRound_nonneg this
    unfold evaluateCVMatchRate
    positivity
  · unfold evaluateCVMatchRate
    have ha : 0 ≤ cvWeightedSum s / 5 * 100 := by linarith
    have hb : cvWeightedSum s / 5 * 100 ≤ ((100 : ℤ) : ℚ) := by
      push_cast; linarith
    have := goRound_le_int ha hb
    rw [div_le_one (by norm_num : (0:ℚ) < 100)]
    push_cast at this ⊢
    linarith

theorem cv_composite_weights_and_match_rate_witness :
    cvWeights.sum = 1 ∧
    CalculateCVScore ⟨5, 5, 5, 5⟩ = 5 ∧
    CalculateCVScore ⟨0, 0, 0, 0⟩ = 0 ∧
    0 ≤ evaluateCVMatchRate ⟨5, 5, 5, 5⟩ ∧
    evaluateCVMatchRate ⟨5, 5, 5, 5⟩ ≤ 1 :=
  cv_composite_weights_and_match_rate ⟨5, 5, 5, 5⟩
    ⟨by norm_num, by norm_num⟩ ⟨by norm_num, by norm_num⟩
    ⟨by norm_num, by norm_num⟩ ⟨by norm_num, by norm_num⟩

/-- C8 counterexample: the score 4.6 falls under the first branch
`score >= 4.5` and is labelled Excellent, not Very Good as the claim
states. -/
theorem score_interpretation_4_6_is_excellent :
    GetScoreInterpretation 4.6 = "Excellent - Highly recommended" ∧
    GetScoreInterpretation 4.6 ≠ "Very Good - Strong candidate" := by
  constructor
  · unfold GetScoreInterpretation
    rw [if_pos (by norm_num)]
  · unfold GetScoreInterpretation
    rw [if_pos (by norm_num)]
    decide

/-- C8 (amended): the score-to-label thresholds are inclusive at 4.5, 4.0,
3.5, 3.0 and 2.5; 4.6 and the boundary 4.5 map to Excellent, and 2.4 maps
to Poor. -/
theorem score_interpretation_thresholds :
    (∀ s : ℚ, 4.5 ≤ s →
      GetScoreInterpretation s = "Excellent - Highly recommended") ∧
    (∀ s : ℚ, 4.0 ≤ s → s < 4.5 →
      GetScoreInterpretation s = "Very Good - Strong candidate") ∧
    (∀ s : ℚ, 3.5 ≤ s → s < 4.0 →
      GetScoreInterpretation s = "Good - Solid candidate") ∧
    (∀ s : ℚ, 3.0 ≤ s → s < 3.5 →
      GetScoreInterpretation s = "Average - Consider with reservations") ∧
    (∀ s : ℚ, 2.5 ≤ s → s < 3.0 →
      GetScoreInterpretation s = "Below Average - Not recommended") ∧
    (∀ s : ℚ, s < 2.5 → GetScoreInterpretation s = "Poor - Not suitable") ∧
    GetScoreInterpretation 4.6 = "Excellent - Highly recommended" ∧
    GetScoreInterpretation 2.4 = "Poor - Not suitable" ∧
    GetScoreInterpretation 4.5 = "Excellent - Highly recommended" := by
  have hE : ∀ s : ℚ, 4.5 ≤ s →
      GetScoreInterpretation s = "Excellent - Highly recommended" := by
    intro s h
    unfold GetScoreInterpretation
    rw [if_pos h]
  have hP : ∀ s : ℚ, s < 2.5 →
      GetScoreInterpretation s = "Poor - Not suitable" := by
    intro s h
    unfold GetScoreInterpretation
    rw [if_neg (by linarith), if_neg (by linarith), if_neg (by linarith),
      if_neg (by linarith), if_neg (by linarith)]
  refine ⟨hE, ?_, ?_, ?_, ?_, hP, hE 4.6 (by norm_num),
    hP 2.4 (by norm_num), hE 4.5 (by norm_num)⟩
  · intro s h1 h2
    unfold GetScoreInterpretation
    rw [if_neg (by linarith), if_pos h1]
  · intro s h1 h2
    unfold GetScoreInterpretation
    rw [if_neg (by linarith), if_neg (by linarith), if_pos h1]
  · intro s h1 h2
    unfold GetScoreInterpretation
    rw [if_neg (by linarith), if_neg (by linarith), if_neg (by linarith),
      if_pos h1]
  · intro s h1 h2
    unfold GetScoreInterpretation
    rw [if_neg (by linarith), if_neg (by linarith), if_neg (by linarith),
      if_neg (by linarith), if_pos h1]

theorem score_interpretation_thresholds_witness :
    GetScoreInterpretation 5 = "Excellent - Highly recommended" :=
  score_interpretation_thresholds.1 5 (by norm_num)

/-- C10: with every sub-score in [0, 5], the three composite calculators
return values in [0, 5] and `ValidateScore` accepts each of them. -/
theorem scoring_range_preservation (cv : CVScores) (ps : ProjectScores)
    (h1 : InRange05 cv.technicalSkills) (h2 : InRange05 cv.experienceLevel)
    (h3 : InRange05 cv.achievements) (h4 : InRange05 cv.culturalFit)
    (h5 : InRange05 ps.correctness) (h6 : InRange05 ps.codeQuality)
    (h7 : InRange05 ps.resilience) (h8 : InRange05 ps.documentation)
    (h9 : InRange05 ps.creativity) :
    InRange05 (CalculateCVScore cv) ∧
    InRange05 (CalculateProjectScore ps) ∧
    InRange05 (CalculateOverallScore (CalculateCVScore cv)
      (CalculateProjectScore ps)) ∧
    ValidateScore (CalculateCVScore cv) = .ok () ∧
    ValidateScore (CalculateProjectScore ps) = .ok () ∧
    ValidateScore (CalculateOverallScore (CalculateCVScore cv)
      (CalculateProjectScore ps)) = .ok () := by
  obtain ⟨wcv0, wcv5⟩ := cvWeightedSum_bounds h1 h2 h3 h4
  obtain ⟨wps0, wps5⟩ := projectWeightedSum_bounds h5 h6 h7 h8 h9
  have hcv : InRange05 (CalculateCVScore cv) := round_weighted_bounds wcv0 wcv5
  have hps : InRange05 (CalculateProjectScore ps) :=
    round_weighted_bounds wps0 wps5
  obtain ⟨c0, c5⟩ := hcv
  obtain ⟨p0, p5⟩ := hps
  have hov : InRange05 (CalculateOverallScore (CalculateCVScore cv)
      (CalculateProjectScore ps)) := by
    unfold CalculateOverallScore
    exact round_weighted_bounds (by nlinarith) (by nlinarith)
  exact ⟨⟨c0, c5⟩, ⟨p0, p5⟩, hov, validateScore_ok c0 c5,
    validateScore_ok p0 p5, validateScore_ok hov.1 hov.2⟩

theorem scoring_range_preservation_witness :
    InRange05 (CalculateCVScore ⟨5, 4, 3, 2⟩) ∧
    InRange05 (CalculateProjectScore ⟨1, 2, 3, 4, 5⟩) ∧
    InRange05 (CalculateOverallScore (CalculateCVScore ⟨5, 4, 3, 2⟩)
      (CalculateProjectScore ⟨1, 2, 3, 4, 5⟩)) ∧
    ValidateScore (CalculateCVScore ⟨5, 4, 3, 2⟩) = .ok () ∧
    ValidateScore (CalculateProjectScore ⟨1, 2, 3, 4, 5⟩) = .ok () ∧
    ValidateScore (CalculateOverallScore (CalculateCVScore ⟨5, 4, 3, 2⟩)
      (CalculateProjectScore ⟨1, 2, 3, 4, 5⟩)) = .ok () :=
  scoring_range_preservation ⟨5, 4, 3, 2⟩ ⟨1, 2, 3, 4, 5⟩
    ⟨by norm_num, by norm_num⟩ ⟨by norm_num, by norm_num⟩
    ⟨by norm_num, by norm_num⟩ ⟨by norm_num, by norm_num⟩
    ⟨by norm_num, by norm_num⟩ ⟨by norm_num, by norm_num⟩
    ⟨by norm_num, by norm_num⟩ ⟨by norm_num, by norm_num⟩
    ⟨by norm_num, by norm_num⟩

/-! ## LLM retry wrappers (`internal/llm`, part_002:
`GenerateCompletionWithRetry`, `GenerateStructuredCompletionWithRetry`) -/

/-- The wrapping error `fmt.Errorf("failed after %d retries: %w", maxRetries,
lastErr)` returned when every attempt failed: it records the attempt budget
and wraps the last underlying error (`none` when no attempt ran). -/
structure RetryError where
  retries : ℕ
  wrapped : Option String
  deriving DecidableEq

/-- Trace of one run of a retry wrapper: how many underlying LLM calls were
made, which backoff sleeps (in seconds) happened, and the outcome. -/
structure RetryTrace where
  calls : ℕ
  sleeps : List ℕ
  outcome : Except (Option String) String

/-- The `for i := 0; i < maxRetries; i++` loop body shared by both retry
wrappers: before attempt `i > 0` sleep `i*i` seconds, then call the
underlying completion (the oracle `attempt`); return on the first success,
otherwise remember the error and continue. `fuel` is the number of loop
iterations left, `lastErr` the last error seen so far. -/
def retryGo (attempt : ℕ → Except String String) :
    ℕ → ℕ → Option String → RetryTrace
  | _, 0, lastErr => ⟨0, [], .error lastErr⟩
  | i, fuel + 1, _ =>
    let sleeps := if 0 < i then [i * i] else []
    match attempt i with
    | .ok r => ⟨1, sleeps, .ok r⟩
    | .error e =>
      let rest := retryGo attempt (i + 1) fuel (some e)
      ⟨rest.calls + 1, sleeps ++ rest.sleeps, rest.outcome⟩

/-- Result of a retry wrapper as seen by the caller. -/
structure RetryResult where
  calls : ℕ
  sleeps : List ℕ
  outcome : Except RetryError String

/-- `OpenAIClient.GenerateCompletionWithRetry`, with the underlying
`GenerateCompletion` call abstracted as the oracle `attempt`. -/
def GenerateCompletionWithRetry (attempt : ℕ → Except String String)
    (maxRetries : ℕ) : RetryResult :=
  let t := retryGo attempt 0 maxRetries none
  ⟨t.calls, t.sleeps,
    match t.outcome with
    | .ok r => .ok r
    | .error lastErr => .error ⟨maxRetries, lastErr⟩⟩

/-- `OpenAIClient.GenerateStructuredCompletionWithRetry`: textually the same
loop as `GenerateCompletionWithRetry`, over `GenerateStructuredCompletion`
(abstracted by the same kind of oracle). -/
def GenerateStructuredCompletionWithRetry (attempt : ℕ → Except String String)
    (maxRetries : ℕ) : RetryResult :=
  let t := retryGo attempt 0 maxRetries none
  ⟨t.calls, t.sleeps,
    match t.outcome with
    | .ok r => .ok r
    | .error lastErr => .error ⟨maxRetries, lastErr⟩⟩

theorem retryGo_calls_le (attempt : ℕ → Except String String) :
    ∀ fuel i lastErr, (retryGo attempt i fuel lastErr).calls ≤ fuel := by
  intro fuel
  induction fuel with
  | zero => intro i lastErr; simp [retryGo]
  | succ n ih =>
    intro i lastErr
    simp only [retryGo]
    cases attempt i with
    | ok r => simp
    | error e => simpa using ih (i + 1) (some e)

theorem retryGo_sleeps_of_pos (attempt : ℕ → Except String String) :
    ∀ fuel i lastErr, 0 < i →
      (retryGo attempt i fuel lastErr).sleeps =
        (List.range' i (retryGo attempt i fuel lastErr).calls).map
          (fun k => k * k) := by
  intro fuel
  induction fuel with
  | zero => intro i lastErr _; simp [retryGo]
  | succ n ih =>
    intro i lastErr hi
    simp only [retryGo]
    cases attempt i with
    | ok r => simp [hi, List.range']
    | error e =>
      simp only [if_pos hi]
      have := ih (i + 1) (some e) (Nat.succ_pos i)
      simp [List.range', this]

theorem retryGo_sleeps_zero (attempt : ℕ → Except String String)
    (fuel : ℕ) (lastErr : Option String) :
    (retryGo attempt 0 fuel lastErr).sleeps =
      (List.range' 1 ((retryGo attempt 0 fuel lastErr).calls - 1)).map
        (fun k => k * k) := by
  cases fuel with
  | zero => simp [retryGo]
  | succ n =>
    simp only [retryGo]
    cases attempt 0 with
    | ok r => simp
    | error e =>
      have := retryGo_sleeps_of_pos attempt n 1 (some e) Nat.one_pos
      simp [this]

theorem retryGo_first_success (attempt : ℕ → Except String String) :
    ∀ fuel k i lastErr r, k < fuel → attempt (i + k) = .ok r →
      (∀ j < k, ∃ e, attempt (i + j) = .error e) →
      (retryGo attempt i fuel lastErr).outcome = .ok r ∧
        (retryGo attempt i fuel lastErr).calls = k + 1 := by
  intro fuel
  induction fuel with
  | zero => intro k i lastErr r hk; omega
  | succ n ih =>
    intro k i lastErr r hk hok hfail
    simp only [retryGo]
    cases k with
    | zero =>
      rw [show i + 0 = i from rfl] at hok
      rw [hok]
      exact ⟨rfl, rfl⟩
    | succ m =>
      obtain ⟨e, he⟩ := hfail 0 (Nat.succ_pos m)
      rw [show i + 0 = i from rfl] at he
      rw [he]
      have := ih m (i + 1) (some e) r (by omega)
        (by rw [show i + 1 + m = i + (m + 1) by omega]; exact hok)
        (by intro j hj
            obtain ⟨e', he'⟩ := hfail (j + 1) (by omega)
            exact ⟨e', by rw [show i + 1 + j = i + (j + 1) by omega]; exact he'⟩)
      simp [this.1, this.2]

theorem retryGo_all_fail (attempt : ℕ → Except String String)
    (e : ℕ → String) :
    ∀ fuel i lastErr, 0 < fuel →
      (∀ j < fuel, attempt (i + j) = .error (e (i + j))) →
      (retryGo attempt i fuel lastErr).outcome =
        .error (some (e (i + fuel - 1))) ∧
        (retryGo attempt i fuel lastErr).calls = fuel := by
  intro fuel
  induction fuel with
  | zero => intro i lastErr h; omega
  | succ n ih =>
    intro i lastErr _ hfail
    simp only [retryGo]
    have h0 := hfail 0 (Nat.succ_pos n)
    rw [show i + 0 = i from rfl] at h0
    rw [h0]
    cases n with
    | zero => simp [retryGo]
    | succ m =>
      have := ih (i + 1) (some (e i)) (Nat.succ_pos m)
        (by intro j hj
            rw [show i + 1 + j = i + (j + 1) by omega]
            exact hfail (j + 1) (by omega))
      rw [show i + 1 + (m + 1) - 1 = i + (m + 1 + 1) - 1 by omega] at this
      simp [this.1, this.2]

/-- C4: with an attempt budget `maxRetries ≥ 1`, the retry wrapper makes at
most `maxRetries` underlying calls; its backoff sleeps are exactly
`i²` seconds before retry `i` for `i = 1, …, calls-1`; the first successful
attempt's result is returned unchanged; when every attempt fails the result
is an error wrapping the last underlying error; and the structured variant
behaves identically. -/
theorem generate_completion_with_retry_spec
    (attempt : ℕ → Except String String) (maxRetries : ℕ)
    (hmr : 1 ≤ maxRetries) :
    (GenerateCompletionWithRetry attempt maxRetries).calls ≤ maxRetries ∧
    (GenerateCompletionWithRetry attempt maxRetries).sleeps =
      (List.range' 1 ((GenerateCompletionWithRetry attempt maxRetries).calls
        - 1)).map (fun k => k * k) ∧
    (∀ k r, k < maxRetries → attempt k = .ok r →
      (∀ j < k, ∃ e, attempt j = .error e) →
      (GenerateCompletionWithRetry attempt maxRetries).outcome = .ok r ∧
        (GenerateCompletionWithRetry attempt maxRetries).calls = k + 1) ∧
    (∀ e : ℕ → String, (∀ j < maxRetries, attempt j = .error (e j)) →
      (GenerateCompletionWithRetry attempt maxRetries).outcome =
        .error ⟨maxRetries, some (e (maxRetries - 1))⟩ ∧
        (GenerateCompletionWithRetry attempt maxRetries).calls = maxRetries) ∧
    GenerateStructuredCompletionWithRetry attempt maxRetries =
      GenerateCompletionWithRetry attempt maxRetries := by
  refine ⟨retryGo_calls_le attempt maxRetries 0 none, ?_, ?_, ?_, rfl⟩
  · exact retryGo_sleeps_zero attempt maxRetries none
  · intro k r hk hok hfail
    have := retryGo_first_success attempt maxRetries k 0 none r hk
      (by simpa using hok) (by simpa using hfail)
    unfold GenerateCompletionWithRetry
    refine ⟨?_, this.2⟩
    simp only [this.1]
  · intro e hfail
    have := retryGo_all_fail attempt e maxRetries 0 none hmr
      (by simpa using hfail)
    unfold GenerateCompletionWithRetry
    refine ⟨?_, this.2⟩
    simp [this.1]

theorem generate_completion_with_retry_spec_witness :
    (GenerateCompletionWithRetry (fun _ => .ok "done") 3).calls ≤ 3 ∧
    (GenerateCompletionWithRetry (fun _ => .ok "done") 3).sleeps =
      (List.range' 1 ((GenerateCompletionWithRetry (fun _ => .ok "done") 3).calls
        - 1)).map (fun k => k * k) ∧
    (∀ k r, k < 3 → (fun _ : ℕ => Except.ok (ε := String) "done") k = .ok r →
      (∀ j < k, ∃ e, (fun _ : ℕ => Except.ok (ε := String) "done") j = .error e) →
      (GenerateCompletionWithRetry (fun _ => .ok "done") 3).outcome = .ok r ∧
        (GenerateCompletionWithRetry (fun _ => .ok "done") 3).calls = k + 1) ∧
    (∀ e : ℕ → String,
      (∀ j < 3, (fun _ : ℕ => Except.ok (ε := String) "done") j = .error (e j)) →
      (GenerateCompletionWithRetry (fun _ => .ok "done") 3).outcome =
        .error ⟨3, some (e 2)⟩ ∧
        (GenerateCompletionWithRetry (fun _ => .ok "done") 3).calls = 3) ∧
    GenerateStructuredCompletionWithRetry (fun _ => .ok "done") 3 =
      GenerateCompletionWithRetry (fun _ => .ok "done") 3 :=
  generate_completion_with_retry_spec (fun _ => .ok "done") 3 (by decide)

/-! ## Job state machine (`models`, the MongoDB repository, `JobQueue`
from part_005 and `EvaluationService.EvaluateCandidate`) -/

/-- `models.JobStatus`. -/
inductive JobStatus where
  | queued
  | processing
  | completed
  | failed
  deriving DecidableEq

/-- `models.EvaluationResult` (the scalar payload; the nested score
structures reuse the scoring embedding). -/
structure EvaluationResult where
  cvMatchRate : ℚ
  cvFeedback : String
  projectScore : ℚ
  projectFeedback : String
  overallSummary : String
  cvScores : CVScores
  projectScores : ProjectScores
  deriving DecidableEq

/-- `models.EvaluationJob`, restricted to the fields the worker loop reads
or writes. Go's zero-valued `ErrorMessage ""` stands for "no error";
`Result` is a nullable pointer; timestamps are abstract ticks. -/
structure Job where
  status : JobStatus
  result : Option EvaluationResult
  errorMessage : String
  retryCount : ℕ
  startedAt : Option ℕ
  completedAt : Option ℕ
  updatedAt : ℕ
  deriving DecidableEq

/-- The job record built by `EvaluationHandler.StartEvaluation`: status
Queued, no result, no error, retry counter 0. -/
def newJob (now : ℕ) : Job :=
  { status := .queued, result := none, errorMessage := "", retryCount := 0,
    startedAt := none, completedAt := none, updatedAt := now }

/-- `MongoDBRepository.UpdateJobStatus`: sets the status, stamps
`started_at` on Processing and `completed_at` on Completed/Failed. -/
def UpdateJobStatus (now : ℕ) (status : JobStatus) (j : Job) : Job :=
  { j with
    status := status
    updatedAt := now
    startedAt := if status = .processing then some now else j.startedAt
    completedAt :=
      if status = .completed ∨ status = .failed then some now
      else j.completedAt }

/-- `MongoDBRepository.UpdateJobResult`: stores the result and atomically
moves the job to Completed. -/
def UpdateJobResult (now : ℕ) (r : EvaluationResult) (j : Job) : Job :=
  { j with
    status := .completed
    result := some r
    updatedAt := now
    completedAt := some now }

/-- `MongoDBRepository.UpdateJobError`: stores the error message and
atomically moves the job to Failed. -/
def UpdateJobError (now : ℕ) (msg : String) (j : Job) : Job :=
  { j with
    status := .failed
    errorMessage := msg
    updatedAt := now
    completedAt := some now }

/-- `MongoDBRepository.IncrementRetryCount`. -/
def IncrementRetryCount (now : ℕ) (j : Job) : Job :=
  { j with retryCount := j.retryCount + 1, updatedAt := now }

/-- The five stages of `EvaluationService.EvaluateCandidate` that can fail
after the status update: context retrieval and the four LLM stages. -/
inductive Stage where
  | getContext
  | analyzeCV
  | evaluateCV
  | evaluateProject
  | overallSummary
  deriving DecidableEq

/-- The `fmt.Errorf` wrapping prefix `EvaluateCandidate` puts on each
stage's error before returning it. -/
def stageErrorText : Stage → String
  | .getContext => "failed to get relevant context: "
  | .analyzeCV => "failed to analyze CV: "
  | .evaluateCV => "failed to evaluate CV: "
  | .evaluateProject => "failed to evaluate project: "
  | .overallSummary => "failed to generate overall summary: "

/-- Oracle for one run of the evaluation pipeline: how many external LLM
calls it performs and whether it produces a result or fails at some stage
with some underlying error message. -/
structure EvalRun where
  llmCalls : ℕ
  outcome : Except (Stage × String) EvaluationResult

/-- `EvaluationService.EvaluateCandidate`: re-reads the job, sets status
Processing, runs the pipeline (abstracted by `run`); on success it stores
the result via `UpdateJobResult`, on stage failure it returns the wrapped
error without touching the record further. Returns the updated job, the
number of LLM calls made, and the error surfaced to the caller. -/
def EvaluateCandidate (run : EvalRun) (now : ℕ) (j : Job) :
    Job × ℕ × Except String Unit :=
  let j1 := UpdateJobStatus now .processing j
  match run.outcome with
  | .ok r => (UpdateJobResult now r j1, run.llmCalls, .ok ())
  | .error (st, e) => (j1, run.llmCalls, .error (stageErrorText st ++ e))

/-- Result of one `JobQueue.processJob` delivery. -/
structure StepOut where
  job : Job
  llmCalls : ℕ
  evalInvoked : Bool
  ret : Except String Unit

/-- `JobQueue.processJob`: skip terminal jobs, fail the job when the retry
budget is exhausted, otherwise set Processing and run `EvaluateCandidate`,
recording a failure's message on the job and propagating the error. -/
def processJob (maxRetries : ℕ) (run : EvalRun) (now : ℕ) (j : Job) :
    StepOut :=
  if j.status = .completed ∨ j.status = .failed then
    ⟨j, 0, false, .ok ()⟩
  else if maxRetries ≤ j.retryCount then
    ⟨UpdateJobError now "Max retries exceeded" j, 0, false, .ok ()⟩
  else
    let j1 := UpdateJobStatus now .processing j
    match EvaluateCandidate run now j1 with
    | (j2, calls, .ok ()) => ⟨j2, calls, true, .ok ()⟩
    | (j2, calls, .error e) =>
      ⟨UpdateJobError now e j2, calls, true,
        .error ("evaluation failed: " ++ e)⟩

/-- One delivery handled by the `JobQueue.ProcessJobs` loop: run
`processJob`; when it returns an error, increment the retry counter. -/
def workerStep (maxRetries : ℕ) (run : EvalRun) (now : ℕ) (j : Job) : Job :=
  let o := processJob maxRetries run now j
  match o.ret with
  | .ok _ => o.job
  | .error _ => IncrementRetryCount now o.job

/-- Job states reachable from submission through any sequence of worker
deliveries, with arbitrary pipeline outcomes and timestamps. -/
inductive Reachable (maxRetries : ℕ) : Job → Prop where
  | init (now : ℕ) : Reachable maxRetries (newJob now)
  | step (run : EvalRun) (now : ℕ) (j : Job) :
      Reachable maxRetries j →
      Reachable maxRetries (workerStep maxRetries run now j)

/-- The C2 state invariant. -/
def JobInvariant (j : Job) : Prop :=
  (j.status = .completed ↔ j.result.isSome ∧ j.errorMessage = "") ∧
  (j.status = .failed ↔ j.errorMessage ≠ "" ∧ j.result = none) ∧
  ¬(j.result.isSome ∧ j.errorMessage ≠ "")

theorem stageErrorText_ne_empty (st : Stage) (e : String) :
    stageErrorText st ++ e ≠ "" := by
  intro h
  have hlen : (stageErrorText st ++ e).length = 0 := by rw [h]; rfl
  rw [String.length_append] at hlen
  have hpos : 0 < (stageErrorText st).length := by cases st <;> decide
  omega

theorem invariant_nonterminal {j : Job} (hinv : JobInvariant j)
    (hq : j.status ≠ .completed) (hf : j.status ≠ .failed) :
    j.result = none ∧ j.errorMessage = "" := by
  obtain ⟨h1, h2, h3⟩ := hinv
  constructor
  · cases hr : j.result with
    | none => rfl
    | some r =>
      exfalso
      have hsome : j.result.isSome := by rw [hr]; rfl
      have herr : j.errorMessage = "" := by
        by_contra hne
        exact h3 ⟨hsome, hne⟩
      exact hq (h1.2 ⟨hsome, herr⟩)
  · by_contra hne
    cases hr : j.result with
    | some r =>
      have hsome : j.result.isSome := by rw [hr]; rfl
      exact h3 ⟨hsome, hne⟩
    | none => exact hf (h2.2 ⟨hne, hr⟩)

theorem workerStep_preserves_invariant (maxRetries : ℕ) (run : EvalRun)
    (now : ℕ) (j : Job) (hinv : JobInvariant j) :
    JobInvariant (workerStep maxRetries run now j) := by
  unfold workerStep processJob
  by_cases hterm : j.status = .completed ∨ j.status = .failed
  · rw [if_pos hterm]
    exact hinv
  · rw [if_neg hterm]
    push_neg at hterm
    obtain ⟨hres, herr⟩ := invariant_nonterminal hinv hterm.1 hterm.2
    by_cases hretry : maxRetries ≤ j.retryCount
    · rw [if_pos hretry]
      refine ⟨?_, ?_, ?_⟩ <;>
        simp [UpdateJobError, hres]
    · rw [if_neg hretry]
      unfold EvaluateCandidate
      cases hout : run.outcome with
      | ok r =>
        simp only [hout]
        refine ⟨?_, ?_, ?_⟩ <;>
          simp [UpdateJobResult, UpdateJobStatus, herr]
      | error se =>
        obtain ⟨st, e⟩ := se
        simp only [hout]
        have hne := stageErrorText_ne_empty st e
        refine ⟨?_, ?_, ?_⟩ <;>
          simp [IncrementRetryCount, UpdateJobError, UpdateJobStatus,
            hres, hne]

/-- C2: on every reachable job state, Completed holds iff a result is
present and the error message is absent, Failed holds iff an error message
is present and the result is absent, and result and error are never both
present. -/
theorem reachable_status_result_error_invariant (maxRetries : ℕ) (j : Job)
    (h : Reachable maxRetries j) :
    (j.status = .completed ↔ j.result.isSome ∧ j.errorMessage = "") ∧
    (j.status = .failed ↔ j.errorMessage ≠ "" ∧ j.result = none) ∧
    ¬(j.result.isSome ∧ j.errorMessage ≠ "") := by
  have hinv : JobInvariant j := by
    induction h with
    | init now => simp [JobInvariant, newJob]
    | step run now j' hr ih =>
      exact workerStep_preserves_invariant maxRetries run now j' ih
  exact hinv

theorem reachable_status_result_error_invariant_witness :
    ((newJob 0).status = .completed ↔
      (newJob 0).result.isSome ∧ (newJob 0).errorMessage = "") ∧
    ((newJob 0).status = .failed ↔
      (newJob 0).errorMessage ≠ "" ∧ (newJob 0).result = none) ∧
    ¬((newJob 0).result.isSome ∧ (newJob 0).errorMessage ≠ "") :=
  reachable_status_result_error_invariant 3 (newJob 0) (.init 0)

/-- Shared helper: `processJob` is a complete no-op on a terminal job. -/
theorem processJob_terminal_noop (maxRetries : ℕ) (run : EvalRun)
    (now : ℕ) (j : Job)
    (h : j.status = .completed ∨ j.status = .failed) :
    processJob maxRetries run now j = ⟨j, 0, false, .ok ()⟩ ∧
    workerStep maxRetries run now j = j := by
  constructor
  · unfold processJob
    rw [if_pos h]
  · unfold workerStep processJob
    rw [if_pos h]

/-- C1: a delivery of a job whose stored status is Completed or Failed is
a no-op: `processJob` leaves the record unchanged, makes no LLM call,
invokes no evaluation, and returns success (so the loop does not even
touch the retry counter); hence no worker step moves a job out of a
terminal status, and a second delivery after completion changes nothing. -/
theorem terminal_states_are_terminal (maxRetries : ℕ) (run : EvalRun)
    (now : ℕ) (j : Job)
    (h : j.status = .completed ∨ j.status = .failed) :
    processJob maxRetries run now j = ⟨j, 0, false, .ok ()⟩ ∧
    workerStep maxRetries run now j = j :=
  processJob_terminal_noop maxRetries run now j h

/-- C3 counterexample: a queued job whose retry counter has reached the
budget is marked Failed with the message "Max retries exceeded" (capital M),
not the message "max retries exceeded" stated by the claim. -/
theorem max_retries_message_counterexample :
    (processJob 3 ⟨0, .error (.analyzeCV, "x")⟩ 1
      ⟨.queued, none, "", 3, none, none, 0⟩).job.status = .failed ∧
    (processJob 3 ⟨0, .error (.analyzeCV, "x")⟩ 1
      ⟨.queued, none, "", 3, none, none, 0⟩).job.errorMessage =
        "Max retries exceeded" ∧
    (processJob 3 ⟨0, .error (.analyzeCV, "x")⟩ 1
      ⟨.queued, none, "", 3, none, none, 0⟩).job.errorMessage ≠
        "max retries exceeded" :=
  ⟨rfl, rfl, by decide⟩

/-- C3 (amended): a non-terminal job whose retry counter is at or above the
configured maximum is marked Failed with exactly the fixed message
"Max retries exceeded"; the step makes no LLM call, invokes no evaluation
stage, returns success (so the loop does not touch the retry counter), and
any later delivery of the job is a no-op. -/
theorem max_retries_exhaustion_fails_job (maxRetries : ℕ) (run : EvalRun)
    (now : ℕ) (j : Job)
    (hnt : j.status = .queued ∨ j.status = .processing)
    (hr : maxRetries ≤ j.retryCount) :
    processJob maxRetries run now j =
      ⟨UpdateJobError now "Max retries exceeded" j, 0, false, .ok ()⟩ ∧
    workerStep maxRetries run now j =
      UpdateJobError now "Max retries exceeded" j ∧
    (∀ run2 now2, workerStep maxRetries run2 now2
        (UpdateJobError now "Max retries exceeded" j) =
      UpdateJobError now "Max retries exceeded" j) := by
  have hnterm : ¬(j.status = .completed ∨ j.status = .failed) := by
    rcases hnt with h | h <;> rw [h] <;> simp
  have hp : processJob maxRetries run now j =
      ⟨UpdateJobError now "Max retries exceeded" j, 0, false, .ok ()⟩ := by
    unfold processJob
    rw [if_neg hnterm, if_pos hr]
  refine ⟨hp, ?_, ?_⟩
  · unfold workerStep
    rw [hp]
  · intro run2 now2
    exact (processJob_terminal_noop maxRetries run2 now2 _
      (Or.inr rfl)).2

theorem max_retries_exhaustion_fails_job_witness :
    processJob 3 ⟨0, .error (.analyzeCV, "x")⟩ 1
        ⟨.queued, none, "", 3, none, none, 0⟩ =
      ⟨UpdateJobError 1 "Max retries exceeded"
        ⟨.queued, none, "", 3, none, none, 0⟩, 0, false, .ok ()⟩ ∧
    workerStep 3 ⟨0, .error (.analyzeCV, "x")⟩ 1
        ⟨.queued, none, "", 3, none, none, 0⟩ =
      UpdateJobError 1 "Max retries exceeded"
        ⟨.queued, none, "", 3, none, none, 0⟩ ∧
    (∀ run2 now2, workerStep 3 run2 now2
        (UpdateJobError 1 "Max retries exceeded"
          ⟨.queued, none, "", 3, none, none, 0⟩) =
      UpdateJobError 1 "Max retries exceeded"
        ⟨.queued, none, "", 3, none, none, 0⟩) :=
  max_retries_exhaustion_fails_job 3 ⟨0, .error (.analyzeCV, "x")⟩ 1
    ⟨.queued, none, "", 3, none, none, 0⟩ (Or.inl rfl) (by decide)

theorem terminal_states_are_terminal_witness :
    processJob 3 ⟨0, .error (.analyzeCV, "boom")⟩ 7
        (UpdateJobResult 5 ⟨1, "fb", 2, "pf", "sum", ⟨5, 5, 5, 5⟩,
          ⟨5, 5, 5, 5, 5⟩⟩ (newJob 0)) =
      ⟨UpdateJobResult 5 ⟨1, "fb", 2, "pf", "sum", ⟨5, 5, 5, 5⟩,
          ⟨5, 5, 5, 5, 5⟩⟩ (newJob 0), 0, false, .ok ()⟩ ∧
    workerStep 3 ⟨0, .error (.analyzeCV, "boom")⟩ 7
        (UpdateJobResult 5 ⟨1, "fb", 2, "pf", "sum", ⟨5, 5, 5, 5⟩,
          ⟨5, 5, 5, 5, 5⟩⟩ (newJob 0)) =
      UpdateJobResult 5 ⟨1, "fb", 2, "pf", "sum", ⟨5, 5, 5, 5⟩,
          ⟨5, 5, 5, 5, 5⟩⟩ (newJob 0) :=
  terminal_states_are_terminal 3 ⟨0, .error (.analyzeCV, "boom")⟩ 7 _
    (Or.inl rfl)

/-! ## Vector store (`internal/rag/vector_store.go`) and embedding client
(`OpenAIClient.GenerateEmbedding`, part_002) -/

/-- The accumulated `dotProduct` of `cosineSimilarity`'s loop. The loop also
computes `normA = dotProduct a a` and `normB = dotProduct b b` (the lengths
are equal whenever the loop runs). -/
def dotProduct (a b : List ℝ) : ℝ := (List.zipWith (· * ·) a b).sum

/-- `VectorStore.cosineSimilarity`: 0 on dimension mismatch or when either
vector has zero norm, else `dot(a,b) / (sqrt(normA) * sqrt(normB))`. -/
noncomputable def cosineSimilarity (a b : List ℝ) : ℝ :=
  if a.length ≠ b.length then 0
  else if dotProduct a a = 0 ∨ dotProduct b b = 0 then 0
  else dotProduct a b / (Real.sqrt (dotProduct a a) * Real.sqrt (dotProduct b b))

/-- `models.JobDescription` (`id` stands in for the Mongo ObjectID). -/
structure JobDescription where
  id : ℕ
  title : String
  description : String
  requirements : String
  embedding : List ℝ

/-- The scored list built by `SearchSimilarJobDescriptions` before sorting:
each stored document paired with its similarity to the query embedding, in
scan order. -/
noncomputable def scoredJobs (queryEmb : List ℝ) (docs : List JobDescription) :
    List (JobDescription × ℝ) :=
  docs.map (fun d => (d, cosineSimilarity queryEmb d.embedding))

/-- One pass of the inner `j` loop of the sort in
`SearchSimilarJobDescriptions`, for a fixed outer index `i`: the current
front element `c` is swapped with each later element that beats it
(`scoredJobs[i].score < scoredJobs[j].score`); returns the element left at
position `i` (the maximum) and the rest of the slice as modified by the
swaps. -/
noncomputable def selectStep (c : JobDescription × ℝ) :
    List (JobDescription × ℝ) →
      (JobDescription × ℝ) × List (JobDescription × ℝ)
  | [] => (c, [])
  | x :: xs =>
    if c.2 < x.2 then
      ((selectStep x xs).1, c :: (selectStep x xs).2)
    else
      ((selectStep c xs).1, x :: (selectStep c xs).2)

/-- The outer `i` loop of the sort: `fuel` counts its remaining
iterations (`len(scoredJobs)` at the start). -/
noncomputable def sortLoop :
    ℕ → List (JobDescription × ℝ) → List (JobDescription × ℝ)
  | 0, l => l
  | _ + 1, [] => []
  | fuel + 1, x :: xs => (selectStep x xs).1 :: sortLoop fuel (selectStep x xs).2

/-- The complete exchange sort of `SearchSimilarJobDescriptions`. -/
noncomputable def sortScored (l : List (JobDescription × ℝ)) :
    List (JobDescription × ℝ) :=
  sortLoop l.length l

/-- The post-embedding part of `SearchSimilarJobDescriptions`: score every
stored document, sort descending by score, clamp `limit` to the corpus size
and return the first `limit` documents. -/
noncomputable def searchSimilar (queryEmb : List ℝ)
    (docs : List JobDescription) (limit : ℕ) : List JobDescription :=
  ((sortScored (scoredJobs queryEmb docs)).take (min limit docs.length)).map
    Prod.fst

/-- Go `unicode.IsSpace` restricted to its Latin-1 table entries
(tab, newline, vertical tab, form feed, carriage return, space, NEL,
no-break space); the theorems below quantify over strings built from these
characters, so the omitted higher Unicode space category does not matter. -/
def goIsSpace (c : Char) : Bool :=
  c == ' ' || c == '\t' || c == '\n' || c == '\r' ||
    c == Char.ofNat 11 || c == Char.ofNat 12 ||
    c == Char.ofNat 0x85 || c == Char.ofNat 0xA0

/-- Go `strings.TrimSpace`: strip leading and trailing whitespace. -/
def trimSpace (s : String) : String :=
  ⟨((s.data.dropWhile goIsSpace).reverse.dropWhile goIsSpace).reverse⟩

/-- `OpenAIClient.GenerateEmbedding`, with the network call abstracted by
the oracle `net`; returns how many embedding-service calls were made
(0 or 1) next to the result. Go truncates at 8000 bytes; the embedding is
modelled per rune, which agrees on the inputs used here. The provider-side
"no embeddings returned" check lives inside `net`. -/
def GenerateEmbedding (net : String → Except String (List ℝ))
    (text : String) : ℕ × Except String (List ℝ) :=
  if text = "" then (0, .error "input text cannot be empty")
  else
    let t1 := if 8000 < text.length then ⟨text.data.take 8000⟩ else text
    let t2 := trimSpace t1
    if t2 = "" ∨ t2.length < 3 then (0, .error "input text is invalid")
    else if t2.data.any (fun c => c == Char.ofNat 0) then
      (0, .error "input text contains null bytes")
    else
      (1, match net t2 with
          | .error e => .error ("failed to create embeddings: " ++ e)
          | .ok emb => .ok emb)

/-- `VectorStore.SearchSimilarJobDescriptions`: reject empty and
whitespace-only queries before any embedding call, then embed the trimmed
query and rank the stored documents. The repository read
(`GetAllJobDescriptions`) is modelled as the given document list. -/
noncomputable def SearchSimilarJobDescriptions
    (net : String → Except String (List ℝ)) (docs : List JobDescription)
    (query : String) (limit : ℕ) :
    ℕ × Except String (List JobDescription) :=
  if query = "" then (0, .error "query cannot be empty")
  else
    let q := trimSpace query
    if q = "" then (0, .error "query is empty after trimming")
    else
      match GenerateEmbedding net q with
      | (calls, .error e) =>
        (calls, .error ("failed to generate query embedding: " ++ e))
      | (calls, .ok emb) => (calls, .ok (searchSimilar emb docs limit))

/-- `VectorStore.GetRelevantContext`: two top-2 searches, one per input;
either failure aborts the whole retrieval. Returns the total number of
embedding-service calls and the two result sets (the final text rendering,
a Go map iteration, carries no claim and is not modelled). -/
noncomputable def GetRelevantContext
    (net : String → Except String (List ℝ)) (docs : List JobDescription)
    (cvContent projectContent : String) :
    ℕ × Except String (List JobDescription × List JobDescription) :=
  match SearchSimilarJobDescriptions net docs cvContent 2 with
  | (c1, .error e) => (c1, .error ("failed to search CV context: " ++ e))
  | (c1, .ok cvResults) =>
    match SearchSimilarJobDescriptions net docs projectContent 2 with
    | (c2, .error e) =>
      (c1 + c2, .error ("failed to search project context: " ++ e))
    | (c2, .ok projectResults) => (c1 + c2, .ok (cvResults, projectResults))

/-- The spec's reading of the ranking: a stable descending sort (ties keep
scan order), then the first `limit` documents. Modelled from the spec
sentence "ordered descending by score, ties broken by the document's scan
order (stable)" for comparison with `searchSimilar`. -/
noncomputable def stableTopK (queryEmb : List ℝ)
    (docs : List JobDescription) (limit : ℕ) : List JobDescription :=
  (((scoredJobs queryEmb docs).insertionSort
      (fun a b => b.2 ≤ a.2)).take (min limit docs.length)).map Prod.fst

theorem dotProduct_comm (a : List ℝ) :
    ∀ b : List ℝ, dotProduct a b = dotProduct b a := by
  induction a with
  | nil => intro b; cases b <;> simp [dotProduct]
  | cons x xs ih =>
    intro b
    cases b with
    | nil => simp [dotProduct]
    | cons y ys =>
      simp only [dotProduct, List.zipWith_cons_cons, List.sum_cons]
      rw [mul_comm]
      have := ih ys
      simp only [dotProduct] at this
      rw [this]

theorem dotProduct_self_nonneg (a : List ℝ) : 0 ≤ dotProduct a a := by
  induction a with
  | nil => simp [dotProduct]
  | cons x xs ih =>
    simp only [dotProduct, List.zipWith_cons_cons, List.sum_cons] at ih ⊢
    exact add_nonneg (mul_self_nonneg x) ih

theorem dotProduct_self_pos {a : List ℝ} {x : ℝ} (hx : x ∈ a)
    (hne : x ≠ 0) : 0 < dotProduct a a := by
  induction a with
  | nil => cases hx
  | cons y ys ih =>
    simp only [dotProduct, List.zipWith_cons_cons, List.sum_cons]
    rcases List.mem_cons.1 hx with rfl | hmem
    · exact add_pos_of_pos_of_nonneg (mul_self_pos.2 hne)
        (dotProduct_self_nonneg ys)
    · have := ih hmem
      simp only [dotProduct] at this
      exact add_pos_of_nonneg_of_pos (mul_self_nonneg y) this

/-- C6: cosine similarity equals `dot(a,b) / (||a||·||b||)` on equal-length
vectors of non-zero norm, equals 0 on dimension mismatch or zero norm, is
symmetric, and gives 1 on any non-zero vector paired with itself. -/
theorem cosine_similarity_spec :
    (∀ a b : List ℝ, a.length = b.length → dotProduct a a ≠ 0 →
      dotProduct b b ≠ 0 →
      cosineSimilarity a b = dotProduct a b /
        (Real.sqrt (dotProduct a a) * Real.sqrt (dotProduct b b))) ∧
    (∀ a b : List ℝ, a.length ≠ b.length → cosineSimilarity a b = 0) ∧
    (∀ a b : List ℝ, dotProduct a a = 0 ∨ dotProduct b b = 0 →
      cosineSimilarity a b = 0) ∧
    (∀ a b : List ℝ, cosineSimilarity a b = cosineSimilarity b a) ∧
    (∀ a : List ℝ, (∃ x ∈ a, x ≠ 0) → cosineSimilarity a a = 1) := by
  refine ⟨?_, ?_, ?_, ?_, ?_⟩
  · intro a b hlen ha hb
    unfold cosineSimilarity
    rw [if_neg (by simp [hlen]), if_neg (by simp [ha, hb])]
  · intro a b hlen
    unfold cosineSimilarity
    rw [if_pos hlen]
  · intro a b hz
    unfold cosineSimilarity
    by_cases hlen : a.length = b.length
    · rw [if_neg (by simp [hlen]), if_pos hz]
    · rw [if_pos hlen]
  · intro a b
    unfold cosineSimilarity
    by_cases hlen : a.length = b.length
    · by_cases hz : dotProduct a a = 0 ∨ dotProduct b b = 0
      · rw [if_neg (by simp [hlen]), if_pos hz,
          if_neg (by simp [hlen]), if_pos (Or.symm hz)]
      · rw [if_neg (by simp [hlen]), if_neg hz,
          if_neg (by simp [hlen]), if_neg (fun h => hz (Or.symm h)),
          dotProduct_comm a b, mul_comm]
    · rw [if_pos hlen, if_pos (fun h => hlen h.symm)]
  · intro a ⟨x, hx, hne⟩
    have hpos := dotProduct_self_pos hx hne
    unfold cosineSimilarity
    rw [if_neg (by simp), if_neg (by simp [ne_of_gt hpos]),
      Real.mul_self_sqrt (le_of_lt hpos), div_self (ne_of_gt hpos)]

theorem cosine_similarity_spec_witness :
    ((1:ℝ) ∈ [(1:ℝ)] ∧ (1:ℝ) ≠ 0) ∧
    cosineSimilarity [(1:ℝ)] [(1:ℝ)] = 1 :=
  ⟨⟨by simp, one_ne_zero⟩,
    cosine_similarity_spec.2.2.2.2 [(1:ℝ)] ⟨1, by simp, one_ne_zero⟩⟩

theorem selectStep_perm (c : JobDescription × ℝ) (xs : List (JobDescription × ℝ)) :
    ((selectStep c xs).1 :: (selectStep c xs).2).Perm (c :: xs) := by
  induction xs generalizing c with
  | nil => simp [selectStep]
  | cons x xs ih =>
    by_cases h : c.2 < x.2
    · simp only [selectStep, if_pos h]
      exact List.Perm.trans
        (List.Perm.swap c (selectStep x xs).1 (selectStep x xs).2)
        ((ih x).cons c)
    · simp only [selectStep, if_neg h]
      exact List.Perm.trans
        (List.Perm.swap x (selectStep c xs).1 (selectStep c xs).2)
        (List.Perm.trans ((ih c).cons x) (List.Perm.swap c x xs))

theorem selectStep_le (c : JobDescription × ℝ) (xs : List (JobDescription × ℝ)) :
    c.2 ≤ (selectStep c xs).1.2 ∧
      ∀ y ∈ (selectStep c xs).2, y.2 ≤ (selectStep c xs).1.2 := by
  induction xs generalizing c with
  | nil => simp [selectStep]
  | cons x xs ih =>
    by_cases h : c.2 < x.2
    · simp only [selectStep, if_pos h]
      obtain ⟨h1, h2⟩ := ih x
      refine ⟨le_trans (le_of_lt h) h1, ?_⟩
      intro y hy
      rcases List.mem_cons.1 hy with rfl | hmem
      · exact le_trans (le_of_lt h) h1
      · exact h2 y hmem
    · simp only [selectStep, if_neg h]
      obtain ⟨h1, h2⟩ := ih c
      refine ⟨h1, ?_⟩
      intro y hy
      rcases List.mem_cons.1 hy with rfl | hmem
      · exact le_trans (not_lt.1 h) h1
      · exact h2 y hmem

theorem sortLoop_perm :
    ∀ fuel (l : List (JobDescription × ℝ)), l.length ≤ fuel →
      (sortLoop fuel l).Perm l := by
  intro fuel
  induction fuel with
  | zero => intro l _; exact List.Perm.refl l
  | succ n ih =>
    intro l hlen
    cases l with
    | nil => simp [sortLoop]
    | cons x xs =>
      simp only [sortLoop]
      have hperm := selectStep_perm x xs
      have hrlen : (selectStep x xs).2.length = xs.length := by
        have := hperm.length_eq
        simpa using this
      have hr := ih (selectStep x xs).2
        (by rw [hrlen]; simpa using Nat.le_of_succ_le_succ hlen)
      exact ((hr.cons (selectStep x xs).1).trans hperm)

theorem sortLoop_sorted :
    ∀ fuel (l : List (JobDescription × ℝ)), l.length ≤ fuel →
      (sortLoop fuel l).Pairwise (fun a b => b.2 ≤ a.2) := by
  intro fuel
  induction fuel with
  | zero =>
    intro l hlen
    have : l = [] := List.length_eq_zero.1 (Nat.le_zero.1 hlen)
    simp [this, sortLoop]
  | succ n ih =>
    intro l hlen
    cases l with
    | nil => simp [sortLoop]
    | cons x xs =>
      simp only [sortLoop]
      have hsel := selectStep_le x xs
      have hperm := selectStep_perm x xs
      have hrlen : (selectStep x xs).2.length = xs.length := by
        have := hperm.length_eq
        simpa using this
      have hle : xs.length ≤ n := Nat.le_of_succ_le_succ hlen
      refine List.Pairwise.cons ?_ (ih (selectStep x xs).2 (by omega))
      intro y hy
      have : y ∈ (selectStep x xs).2 :=
        (sortLoop_perm n (selectStep x xs).2 (by omega)).mem_iff.1 hy
      exact hsel.2 y this

/-- C5 (amended): the search result is the first `min K N` documents of a
permutation of the scored corpus ordered descending by similarity (so it is
a top-K by cosine similarity, and the whole corpus when K ≥ N), but the
exchange sort is not stable, so documents with equal scores are not
guaranteed to appear in scan order. -/
theorem search_topk_sorted_descending (q : List ℝ)
    (docs : List JobDescription) (K : ℕ) :
    (sortScored (scoredJobs q docs)).Perm (scoredJobs q docs) ∧
    (sortScored (scoredJobs q docs)).Pairwise (fun a b => b.2 ≤ a.2) ∧
    searchSimilar q docs K =
      ((sortScored (scoredJobs q docs)).take (min K docs.length)).map
        Prod.fst ∧
    (docs.length ≤ K → (searchSimilar q docs K).length = docs.length) := by
  refine ⟨sortLoop_perm _ _ le_rfl, sortLoop_sorted _ _ le_rfl, rfl, ?_⟩
  intro hK
  have hlen : (sortScored (scoredJobs q docs)).length = docs.length := by
    unfold sortScored
    rw [(sortLoop_perm _ _ le_rfl).length_eq]
    simp [scoredJobs]
  unfold searchSimilar
  rw [List.length_map, List.length_take, hlen]
  omega

theorem search_topk_sorted_descending_witness :
    (sortScored (scoredJobs [(1:ℝ)] [])).Perm (scoredJobs [(1:ℝ)] []) ∧
    (sortScored (scoredJobs [(1:ℝ)] [])).Pairwise (fun a b => b.2 ≤ a.2) ∧
    searchSimilar [(1:ℝ)] [] 2 =
      ((sortScored (scoredJobs [(1:ℝ)] [])).take (min 2 0)).map Prod.fst ∧
    (0 ≤ 2 → (searchSimilar [(1:ℝ)] [] 2).length = 0) :=
  search_topk_sorted_descending [(1:ℝ)] [] 2

/-- First stored document of the tie-order counterexample (scan order 1). -/
def docA : JobDescription := ⟨1, "", "", "", [0, 1]⟩

/-- Second stored document, same embedding (and so same score) as `docA`. -/
def docB : JobDescription := ⟨2, "", "", "", [0, 1]⟩

/-- Third stored document, equal to the query embedding. -/
def docC : JobDescription := ⟨3, "", "", "", [1, 0]⟩

theorem cos_e1_e2 : cosineSimilarity [(1:ℝ), 0] [0, 1] = 0 := by
  have hab : dotProduct [(1:ℝ), 0] [0, 1] = 0 := by norm_num [dotProduct]
  unfold cosineSimilarity
  rw [if_neg (by simp), hab]
  split <;> simp

theorem cos_e1_e1 : cosineSimilarity [(1:ℝ), 0] [1, 0] = 1 := by
  have ha : dotProduct [(1:ℝ), 0] [1, 0] = 1 := by norm_num [dotProduct]
  unfold cosineSimilarity
  rw [if_neg (by simp), if_neg (by rw [ha]; norm_num), ha, Real.sqrt_one]
  norm_num

theorem searchSimilar_counterexample_eval :
    searchSimilar [(1:ℝ), 0] [docA, docB, docC] 3 = [docC, docB, docA] := by
  have hscore : scoredJobs [(1:ℝ), 0] [docA, docB, docC] =
      [(docA, 0), (docB, 0), (docC, 1)] := by
    simp only [scoredJobs, List.map, docA, docB, docC]
    rw [cos_e1_e2, cos_e1_e1]
  unfold searchSimilar
  rw [hscore]
  norm_num [sortScored, sortLoop, selectStep]

theorem stableTopK_counterexample_eval :
    stableTopK [(1:ℝ), 0] [docA, docB, docC] 3 = [docC, docA, docB] := by
  have hscore : scoredJobs [(1:ℝ), 0] [docA, docB, docC] =
      [(docA, 0), (docB, 0), (docC, 1)] := by
    simp only [scoredJobs, List.map, docA, docB, docC]
    rw [cos_e1_e2, cos_e1_e1]
  unfold stableTopK
  rw [hscore]
  norm_num [List.insertionSort, List.orderedInsert]

/-- C5 counterexample: with query embedding (1,0) and the corpus
(docA, docB, docC) scanned in that order, docA and docB tie with score 0
but the search returns them in the order docB, docA — not the scan order
that a stable descending sort (the claim) produces. -/
theorem search_tie_order_counterexample :
    (SearchSimilarJobDescriptions (fun _ => .ok [(1:ℝ), 0])
        [docA, docB, docC] "abc" 3).2 = .ok [docC, docB, docA] ∧
    stableTopK [(1:ℝ), 0] [docA, docB, docC] 3 = [docC, docA, docB] ∧
    ([docC, docB, docA] : List JobDescription) ≠ [docC, docA, docB] := by
  refine ⟨?_, stableTopK_counterexample_eval, ?_⟩
  · have hred : (SearchSimilarJobDescriptions (fun _ => .ok [(1:ℝ), 0])
        [docA, docB, docC] "abc" 3).2 =
        .ok (searchSimilar [(1:ℝ), 0] [docA, docB, docC] 3) := rfl
    rw [hred, searchSimilar_counterexample_eval]
  · intro h
    have h2 : docB = docA := by
      have h1 := congrArg (fun l => l[1]?) h
      simpa using h1
    have h3 : (2 : ℕ) = 1 := congrArg JobDescription.id h2
    omega

theorem trimSpace_all_space {s : String}
    (h : ∀ c ∈ s.data, goIsSpace c) : trimSpace s = "" := by
  unfold trimSpace
  have hd : s.data.dropWhile goIsSpace = [] :=
    List.dropWhile_eq_nil_iff.2 h
  rw [hd]
  rfl

/-- C9 (amended): an empty or whitespace-only query makes
`SearchSimilarJobDescriptions` fail fast with zero embedding-service
calls; `GetRelevantContext` inherits this for its CV input, and still
returns an error (though after the CV search already ran) when only the
project input is empty or whitespace-only. -/
theorem whitespace_inputs_fail_fast :
    (∀ net docs limit (query : String),
      (query = "" ∨ ∀ c ∈ query.data, goIsSpace c) →
      (SearchSimilarJobDescriptions net docs query limit).1 = 0 ∧
      ∃ e, (SearchSimilarJobDescriptions net docs query limit).2 =
        .error e) ∧
    (∀ net docs (cv project : String),
      (cv = "" ∨ ∀ c ∈ cv.data, goIsSpace c) →
      (GetRelevantContext net docs cv project).1 = 0 ∧
      ∃ e, (GetRelevantContext net docs cv project).2 = .error e) ∧
    (∀ net docs (cv project : String),
      (project = "" ∨ ∀ c ∈ project.data, goIsSpace c) →
      ∃ e, (GetRelevantContext net docs cv project).2 = .error e) := by
  have hsearch : ∀ net docs limit (query : String),
      (query = "" ∨ ∀ c ∈ query.data, goIsSpace c) →
      SearchSimilarJobDescriptions net docs query limit =
        (0, .error "query cannot be empty") ∨
      SearchSimilarJobDescriptions net docs query limit =
        (0, .error "query is empty after trimming") := by
    intro net docs limit query h
    by_cases hq : query = ""
    · left
      unfold SearchSimilarJobDescriptions
      rw [if_pos hq]
    · right
      rcases h with h | h
      · exact absurd h hq
      · unfold SearchSimilarJobDescriptions
        rw [if_neg hq]
        simp only [trimSpace_all_space h]
        simp
  have part1 : ∀ net docs limit (query : String),
      (query = "" ∨ ∀ c ∈ query.data, goIsSpace c) →
      (SearchSimilarJobDescriptions net docs query limit).1 = 0 ∧
      ∃ e, (SearchSimilarJobDescriptions net docs query limit).2 =
        .error e := by
    intro net docs limit query h
    rcases hsearch net docs limit query h with he | he <;>
      rw [he] <;> exact ⟨rfl, _, rfl⟩
  refine ⟨part1, ?_, ?_⟩
  · intro net docs cv project h
    rcases hsearch net docs 2 cv h with he | he <;>
    · unfold GetRelevantContext
      rw [he]
      exact ⟨rfl, _, rfl⟩
  · intro net docs cv project h
    unfold GetRelevantContext
    rcases hfst : SearchSimilarJobDescriptions net docs cv 2 with ⟨c1, r1⟩
    cases r1 with
    | error e => exact ⟨_, rfl⟩
    | ok cvResults =>
      rcases hsearch net docs 2 project h with he | he <;>
      · rw [he]
        exact ⟨_, rfl⟩

theorem whitespace_inputs_fail_fast_witness :
    ((SearchSimilarJobDescriptions (fun _ => .ok [(1:ℝ)]) [] "" 2).1 = 0 ∧
      ∃ e, (SearchSimilarJobDescriptions (fun _ => .ok [(1:ℝ)]) [] "" 2).2 =
        .error e) ∧
    ((GetRelevantContext (fun _ => .ok [(1:ℝ)]) [] " " "x").1 = 0 ∧
      ∃ e, (GetRelevantContext (fun _ => .ok [(1:ℝ)]) [] " " "x").2 =
        .error e) :=
  ⟨whitespace_inputs_fail_fast.1 (fun _ => .ok [(1:ℝ)]) [] 2 "" (Or.inl rfl),
    whitespace_inputs_fail_fast.2.1 (fun _ => .ok [(1:ℝ)]) [] " " "x"
      (Or.inr (by decide))⟩

/-- C9 counterexample: with a valid CV input and an empty project input,
`GetRelevantContext` does call the embedding service (once, for the CV
search) before failing, contradicting the claim that it makes no call
whenever either input is empty. -/
theorem relevant_context_embedding_call_counterexample :
    (GetRelevantContext (fun _ => .ok [(1:ℝ)]) [] "abc" "").1 = 1 ∧
    (∃ e, (GetRelevantContext (fun _ => .ok [(1:ℝ)]) [] "abc" "").2 =
      .error e) :=
  ⟨rfl, ⟨_, rfl⟩⟩

end AISummarize
